import Mathlib

/-!
Shallow embedding of `src/backend/main.py` (Tea Grade backend API).

The module exposes two FastAPI endpoints:
  * `POST /analyze` (`analyze_tea`): size check → decode → format check →
    `optimize_image` (resize + alpha compositing) → stub random classification;
  * `GET /health` (`health_check`): constant health record.

Python machine details are embedded as follows: byte strings become
`List Nat`, PIL images become a `DecodedImage` record carrying format tag,
mode tag, dimensions and a pixel map, the external PIL decoder
(`Image.open`) and the LANCZOS resampler are parameters of the pipeline
(the code only branches on their results), the random draws of
`random.choice` / `random.uniform` are parameters (an index per list, a
rational for the uniform draw), and Python floats are modelled by `ℚ`.
The dimension computation of PIL `Image.thumbnail((400, 400))` and the
blending arithmetic of PIL `Image.paste(img, mask=alpha)` are embedded
exactly (the `round_aspect` floor/ceil choice and the `MULDIV255` integer
blend of the C layer).
-/

/-- A pixel is the list of its channel values (e.g. `[r, g, b, a]` for RGBA). -/
def Pixel := List Nat

/-- In-memory decoded image: PIL `Image` as seen by `main.py`
(`image.format`, `image.mode`, `image.size`, pixel data). -/
structure DecodedImage where
  format : String
  mode : String
  width : Nat
  height : Nat
  pix : Nat → Nat → Pixel

/-- Number of channels of a PIL color mode (PIL band count). -/
def modeBands (m : String) : Nat :=
  if m = "RGBA" ∨ m = "CMYK" then 4
  else if m = "RGB" ∨ m = "YCbCr" ∨ m = "HSV" ∨ m = "LAB" then 3
  else if m = "LA" ∨ m = "PA" then 2
  else 1

/-- Whether a PIL color mode carries an alpha channel. -/
def hasAlphaMode (m : String) : Bool :=
  m = "RGBA" ∨ m = "LA" ∨ m = "PA"

/-- A mode is a 3-channel mode with no alpha channel. -/
def threeChannelNoAlpha (m : String) : Prop :=
  modeBands m = 3 ∧ hasAlphaMode m = false

instance (m : String) : Decidable (threeChannelNoAlpha m) := by
  unfold threeChannelNoAlpha; infer_instance

/-- PIL C-layer `MULDIV255(a, b)`: approximate `a * b / 255` as
`((a*b + 128) >> 8 + (a*b + 128)) >> 8`. -/
def mulDiv255 (a b : Nat) : Nat :=
  ((a * b + 128) / 256 + (a * b + 128)) / 256

/-- One channel of PIL `paste` blending onto a white (255) background with
mask value `a`: `BLEND(a, 255, v) = MULDIV255(255, 255-a) + MULDIV255(v, a)`. -/
def blendWhite (a v : Nat) : Nat :=
  mulDiv255 255 (255 - a) + mulDiv255 v a

/-- The last band of a pixel: `image.split()[-1]`, the alpha channel of an
RGBA or LA pixel. -/
def alphaOf (p : Pixel) : Nat :=
  List.getD p (List.length p - 1) 0

/-- `background.paste(image, mask=image.split()[-1])` at one pixel, for a
white RGB background: the pasted pixel is first converted to RGB (for LA,
the luminance is replicated across r, g, b), then each channel is blended
with white using the pixel's own alpha as the mask. -/
def compositeWhite (mode : String) (p : Pixel) : Pixel :=
  let a := alphaOf p
  if mode = "LA" then
    [blendWhite a (List.getD p 0 0), blendWhite a (List.getD p 0 0),
     blendWhite a (List.getD p 0 0)]
  else
    [blendWhite a (List.getD p 0 0), blendWhite a (List.getD p 1 0),
     blendWhite a (List.getD p 2 0)]

/-- PIL `Image.thumbnail`'s `round_aspect` for the target width
(branch `x / y >= aspect`): pick whichever of `⌊t⌋`, `⌈t⌉` makes `n / 400`
closest to the aspect ratio `w / h` (ties to `⌊t⌋`), then clamp to at
least 1. Here `t = 400 * w / h`. -/
def thumbX (w h : Nat) : Nat :=
  let t : ℚ := 400 * w / h
  let f : ℤ := ⌊t⌋
  let c : ℤ := ⌈t⌉
  let keyF : ℚ := |(w : ℚ) / h - (f : ℚ) / 400|
  let keyC : ℚ := |(w : ℚ) / h - (c : ℚ) / 400|
  (max (if keyF ≤ keyC then f else c) 1).toNat

/-- PIL `Image.thumbnail`'s `round_aspect` for the target height
(branch `x / y < aspect`): pick whichever of `⌊t⌋`, `⌈t⌉` makes `400 / n`
closest to the aspect ratio `w / h` (key 0 when `n = 0`, ties to `⌊t⌋`),
then clamp to at least 1. Here `t = 400 * h / w`. -/
def thumbY (w h : Nat) : Nat :=
  let t : ℚ := 400 * h / w
  let f : ℤ := ⌊t⌋
  let c : ℤ := ⌈t⌉
  let keyF : ℚ := if f = 0 then 0 else |(w : ℚ) / h - 400 / (f : ℚ)|
  let keyC : ℚ := if c = 0 then 0 else |(w : ℚ) / h - 400 / (c : ℚ)|
  (max (if keyF ≤ keyC then f else c) 1).toNat

/-- The dimensions produced by `image.thumbnail((400, 400), LANCZOS)`:
return unchanged if the image already fits in the 400×400 box, otherwise
scale the larger dimension to 400 and round the other to preserve the
aspect ratio. -/
def thumbnailSize (w h : Nat) : Nat × Nat :=
  if w ≤ 400 ∧ h ≤ 400 then (w, h)
  else if w ≤ h then (thumbX w h, 400)
  else (400, thumbY w h)

/-- A resampling filter (LANCZOS is left abstract): given the new
dimensions and the old pixel map, produce the new pixel map. -/
def Resample := Nat × Nat → (Nat → Nat → Pixel) → Nat → Nat → Pixel

/-- First half of `optimize_image`:
`if image.size[0] > max_size[0] or image.size[1] > max_size[1]:
image.thumbnail(max_size, Image.Resampling.LANCZOS)` with
`max_size = (400, 400)`. Mode and format are untouched. -/
def resizeStep (resample : Resample) (img : DecodedImage) : DecodedImage :=
  if img.width > 400 ∨ img.height > 400 then
    let s := thumbnailSize img.width img.height
    { img with width := s.1, height := s.2, pix := resample s img.pix }
  else img

/-- Second half of `optimize_image`:
`if image.mode in ("RGBA", "LA"):` composite onto a white RGB background
using the image's own alpha as the mask and replace the image by the
alpha-free RGB result; other modes are untouched. -/
def compositeStep (img : DecodedImage) : DecodedImage :=
  if img.mode = "RGBA" ∨ img.mode = "LA" then
    { img with mode := "RGB",
               pix := fun x y => compositeWhite img.mode (img.pix x y) }
  else img

/-- `optimize_image(image, max_size=(400, 400))` from `main.py`:
bounded resize, then alpha compositing. -/
def optimize_image (resample : Resample) (img : DecodedImage) : DecodedImage :=
  compositeStep (resizeStep resample img)

/-- `TEA_VARIETIES = ["やぶきた", "さえみどり", "つゆひかり"]`. -/
def TEA_VARIETIES : List String := ["やぶきた", "さえみどり", "つゆひかり"]

/-- `TEA_GRADES = ["優良", "中等", "低級"]`. -/
def TEA_GRADES : List String := ["優良", "中等", "低級"]

/-- `random.choice(seq)`: an element of the sequence at a uniformly drawn
index; the randomness is the index parameter `i`, reduced mod the length. -/
def randomChoice (l : List String) (i : Nat) : String :=
  List.getD l (i % List.length l) ""

/-- Round a rational to the nearest integer, ties to even: Python's
`round` on the value of the expression. -/
def roundHalfEven (q : ℚ) : ℤ :=
  let f : ℤ := ⌊q⌋
  let r : ℚ := q - f
  if r < 1 / 2 then f
  else if 1 / 2 < r then f + 1
  else if 2 ∣ f then f else f + 1

/-- Python `round(confidence, 3)`: round to 3 decimal places. -/
def round3 (q : ℚ) : ℚ :=
  (roundHalfEven (q * 1000) : ℚ) / 1000

/-- `AnalyzeResponse(BaseModel)`: variety, grade, confidence. -/
structure AnalyzeResponse where
  variety : String
  grade : String
  confidence : ℚ
deriving DecidableEq

/-- `HealthResponse(BaseModel)`: status, message. -/
structure HealthResponse where
  status : String
  message : String
deriving DecidableEq

/-- A raised `HTTPException(status_code, detail)`. -/
structure HTTPError where
  status : Nat
  detail : String
deriving DecidableEq

/-- `HTTPException(status_code=400, detail="ファイルサイズは5MB以下にしてください")`. -/
def payloadTooLargeError : HTTPError :=
  ⟨400, "ファイルサイズは5MB以下にしてください"⟩

/-- `HTTPException(status_code=400, detail="画像の読み込みに失敗しました")`. -/
def decodeErrorResponse : HTTPError :=
  ⟨400, "画像の読み込みに失敗しました"⟩

/-- `HTTPException(status_code=400, detail="JPEGまたはPNG形式の画像のみ対応しています")`. -/
def unsupportedFormatError : HTTPError :=
  ⟨400, "JPEGまたはPNG形式の画像のみ対応しています"⟩

/-- `analyze_tea` from `main.py`. `decode` is the external PIL
`Image.open` (`none` when it raises), `resample` the LANCZOS filter,
`vIdx`/`gIdx` the random indices drawn by `random.choice`, `conf` the
value drawn by `random.uniform(0.7, 1.0)`, and `contents` the uploaded
bytes. Steps in source order: size check (strict 5 MiB bound), decode,
format allow-list check, `optimize_image`, stub classification. -/
def analyze_tea (decode : List Nat → Option DecodedImage)
    (resample : Resample) (vIdx gIdx : Nat) (conf : ℚ)
    (contents : List Nat) : Except HTTPError AnalyzeResponse :=
  if List.length contents > 5 * 1024 * 1024 then
    .error payloadTooLargeError
  else
    match decode contents with
    | none => .error decodeErrorResponse
    | some image =>
      if image.format ∉ ["JPEG", "PNG"] then
        .error unsupportedFormatError
      else
        let _optimized := optimize_image resample image
        let variety := randomChoice TEA_VARIETIES vIdx
        let grade := randomChoice TEA_GRADES gIdx
        .ok { variety := variety, grade := grade, confidence := round3 conf }

/-- `health_check` from `main.py`: the constant healthy record. -/
def health_check : HealthResponse :=
  ⟨"healthy", "サーバーは正常に動作しています"⟩

/-! ### Helper lemmas: rounding -/

lemma roundHalfEven_cases (q : ℚ) :
    roundHalfEven q = ⌊q⌋ ∨ roundHalfEven q = ⌊q⌋ + 1 := by
  dsimp only [roundHalfEven]
  split_ifs <;> simp

lemma le_roundHalfEven {n : ℤ} {q : ℚ} (h : (n : ℚ) ≤ q) :
    n ≤ roundHalfEven q := by
  have hf : n ≤ ⌊q⌋ := Int.le_floor.mpr h
  rcases roundHalfEven_cases q with h1 | h1 <;> omega

lemma roundHalfEven_le {n : ℤ} {q : ℚ} (h : q ≤ (n : ℚ)) :
    roundHalfEven q ≤ n := by
  have hfn : ⌊q⌋ ≤ n := by
    rw [← Int.floor_intCast (α := ℚ) n]
    exact Int.floor_le_floor h
  dsimp only [roundHalfEven]
  split_ifs with h1 h2 h3
  · exact hfn
  · have hq : (⌊q⌋ : ℚ) < q := by linarith
    have hlt : ⌊q⌋ < n := by
      have h4 : (⌊q⌋ : ℚ) < (n : ℚ) := lt_of_lt_of_le hq h
      exact_mod_cast h4
    omega
  · exact hfn
  · have h5 : (1 : ℚ) / 2 ≤ q - ⌊q⌋ := not_lt.mp h1
    have hq : (⌊q⌋ : ℚ) < q := by linarith
    have hlt : ⌊q⌋ < n := by
      have h4 : (⌊q⌋ : ℚ) < (n : ℚ) := lt_of_lt_of_le hq h
      exact_mod_cast h4
    omega

lemma le_round3 {q : ℚ} (h : 7 / 10 ≤ q) : 7 / 10 ≤ round3 q := by
  unfold round3
  have h700 : ((700 : ℤ) : ℚ) ≤ q * 1000 := by push_cast; linarith
  have hR := le_roundHalfEven h700
  have hR2 : ((700 : ℤ) : ℚ) ≤ (roundHalfEven (q * 1000) : ℚ) := by
    exact_mod_cast hR
  push_cast at hR2
  linarith

lemma round3_le_one {q : ℚ} (h : q ≤ 1) : round3 q ≤ 1 := by
  unfold round3
  have h1000 : q * 1000 ≤ ((1000 : ℤ) : ℚ) := by push_cast; linarith
  have hR := roundHalfEven_le h1000
  have hR2 : (roundHalfEven (q * 1000) : ℚ) ≤ ((1000 : ℤ) : ℚ) := by
    exact_mod_cast hR
  push_cast at hR2
  linarith

lemma round3_thousandths (q : ℚ) : ∃ n : ℤ, round3 q = (n : ℚ) / 1000 :=
  ⟨roundHalfEven (q * 1000), rfl⟩

/-! ### Helper lemmas: the pipeline -/

lemma analyze_tea_ok_inv {decode : List Nat → Option DecodedImage}
    {resample : Resample} {vIdx gIdx : Nat} {conf : ℚ} {contents : List Nat}
    {r : AnalyzeResponse}
    (h : analyze_tea decode resample vIdx gIdx conf contents = .ok r) :
    r.variety = randomChoice TEA_VARIETIES vIdx ∧
    r.grade = randomChoice TEA_GRADES gIdx ∧
    r.confidence = round3 conf := by
  unfold analyze_tea at h
  by_cases hsize : List.length contents > 5 * 1024 * 1024
  · rw [if_pos hsize] at h; exact absurd h (by simp)
  · rw [if_neg hsize] at h
    rcases hdec : decode contents with _ | image <;> rw [hdec] at h
    · exact absurd h (by simp)
    · by_cases hfmt : image.format ∉ ["JPEG", "PNG"]
      · simp only [if_pos hfmt] at h; exact absurd h (by simp)
      · simp only [if_neg hfmt] at h
        simp only [Except.ok.injEq] at h
        subst h
        exact ⟨rfl, rfl, rfl⟩

lemma analyze_tea_ok_shape {decode : List Nat → Option DecodedImage}
    {resample : Resample} (vIdx gIdx : Nat) (conf : ℚ) {contents : List Nat}
    {image : DecodedImage}
    (hsize : ¬List.length contents > 5 * 1024 * 1024)
    (hdec : decode contents = some image)
    (hfmt : image.format ∈ ["JPEG", "PNG"]) :
    analyze_tea decode resample vIdx gIdx conf contents =
      .ok { variety := randomChoice TEA_VARIETIES vIdx,
            grade := randomChoice TEA_GRADES gIdx,
            confidence := round3 conf } := by
  unfold analyze_tea
  rw [if_neg hsize, hdec]
  simp only [if_neg (not_not.mpr hfmt)]

lemma randomChoice_mem (l : List String) (i : Nat) (hne : l ≠ []) :
    randomChoice l i ∈ l := by
  unfold randomChoice
  have hlen : i % List.length l < List.length l :=
    Nat.mod_lt _ (List.length_pos.mpr hne)
  rw [List.getD_eq_getElem l _ hlen]
  exact List.getElem_mem hlen

/-! ### Helper lemmas: thumbnail geometry -/

lemma clampRound_le {t : ℚ} {B : ℕ} (hB : 1 ≤ B) (ht : t ≤ (B : ℚ)) {x : ℤ}
    (hx : x = ⌊t⌋ ∨ x = ⌈t⌉) : (max x 1).toNat ≤ B := by
  have hc : ⌈t⌉ ≤ (B : ℤ) := Int.ceil_le.mpr (by exact_mod_cast ht)
  have hf : ⌊t⌋ ≤ ⌈t⌉ := Int.floor_le_ceil t
  rcases hx with rfl | rfl <;> omega

lemma clampRound_abs_lt {t : ℚ} (ht : 0 < t) {x : ℤ}
    (hx : x = ⌊t⌋ ∨ x = ⌈t⌉) : |((max x 1).toNat : ℚ) - t| < 1 := by
  have hfl : (⌊t⌋ : ℚ) ≤ t := Int.floor_le t
  have hfl2 : t < ⌊t⌋ + 1 := Int.lt_floor_add_one t
  have hcl : t ≤ ⌈t⌉ := Int.le_ceil t
  have hcl2 : (⌈t⌉ : ℚ) < t + 1 := Int.ceil_lt_add_one t
  have hcpos : 0 < ⌈t⌉ := Int.ceil_pos.mpr ht
  have hnn : (0 : ℤ) ≤ max x 1 := le_trans (by omega) (le_max_right x 1)
  have h1 : ((max x 1).toNat : ℤ) = max x 1 := Int.toNat_of_nonneg hnn
  have hcast : (((max x 1).toNat : ℕ) : ℚ) = ((max x 1 : ℤ) : ℚ) := by
    exact_mod_cast h1
  rw [hcast]
  rcases hx with rfl | rfl
  · by_cases h2 : (1 : ℤ) ≤ ⌊t⌋
    · rw [max_eq_left h2, abs_sub_lt_iff]
      constructor <;> linarith
    · rw [max_eq_right (by omega : ⌊t⌋ ≤ 1)]
      have h0 : ⌊t⌋ ≤ 0 := by omega
      have h0q : (⌊t⌋ : ℚ) ≤ 0 := by exact_mod_cast h0
      rw [abs_sub_lt_iff]
      push_cast
      constructor <;> linarith
  · rw [max_eq_left (by omega : (1 : ℤ) ≤ ⌈t⌉), abs_sub_lt_iff]
    constructor <;> linarith

lemma thumbX_cases (w h : Nat) :
    ∃ x : ℤ, (x = ⌊(400 * (w : ℚ) / (h : ℚ))⌋ ∨ x = ⌈(400 * (w : ℚ) / (h : ℚ))⌉) ∧
      thumbX w h = (max x 1).toNat := by
  dsimp only [thumbX]
  split_ifs
  · exact ⟨_, Or.inl rfl, rfl⟩
  · exact ⟨_, Or.inr rfl, rfl⟩

lemma thumbY_cases (w h : Nat) :
    ∃ y : ℤ, (y = ⌊(400 * (h : ℚ) / (w : ℚ))⌋ ∨ y = ⌈(400 * (h : ℚ) / (w : ℚ))⌉) ∧
      thumbY w h = (max y 1).toNat := by
  dsimp only [thumbY]
  split_ifs
  all_goals first
    | exact ⟨_, Or.inl rfl, rfl⟩
    | exact ⟨_, Or.inr rfl, rfl⟩

lemma thumbnailSize_props {w h : Nat} (hw : 1 ≤ w) (hh : 1 ≤ h)
    (hbig : 400 < w ∨ 400 < h) :
    (thumbnailSize w h).1 ≤ 400 ∧ (thumbnailSize w h).2 ≤ 400 ∧
    (thumbnailSize w h).1 ≤ w ∧ (thumbnailSize w h).2 ≤ h ∧
    |((thumbnailSize w h).1 : ℚ) * h - w * ((thumbnailSize w h).2 : ℚ)| <
      ((max w h : ℕ) : ℚ) := by
  have hwq : (0 : ℚ) < w := by exact_mod_cast (by omega : 0 < w)
  have hhq : (0 : ℚ) < h := by exact_mod_cast (by omega : 0 < h)
  unfold thumbnailSize
  split_ifs with h1 h2
  · exact absurd h1 (by omega)
  · -- portrait / square: height is the larger dimension, becomes 400
    have hh400 : 400 < h := by omega
    have hh400q : (400 : ℚ) ≤ h := by exact_mod_cast le_of_lt hh400
    have hwh : (w : ℚ) ≤ h := by exact_mod_cast h2
    obtain ⟨x, hx, hthumb⟩ := thumbX_cases w h
    have ht0 : 0 < 400 * (w : ℚ) / (h : ℚ) :=
      div_pos (by positivity) hhq
    have ht400 : 400 * (w : ℚ) / (h : ℚ) ≤ ((400 : ℕ) : ℚ) := by
      rw [div_le_iff₀ hhq]
      push_cast
      nlinarith
    have htw : 400 * (w : ℚ) / (h : ℚ) ≤ ((w : ℕ) : ℚ) := by
      rw [div_le_iff₀ hhq]
      nlinarith
    have hb400 := clampRound_le (by norm_num) ht400 hx
    have hbw := clampRound_le hw htw hx
    have habs := clampRound_abs_lt ht0 hx
    dsimp only
    rw [hthumb]
    refine ⟨hb400, le_refl _, hbw, by omega, ?_⟩
    have htr : 400 * (w : ℚ) / (h : ℚ) * h = 400 * w :=
      div_mul_cancel₀ _ (ne_of_gt hhq)
    have hsplit : ((max x 1).toNat : ℚ) * h - w * ((400 : ℕ) : ℚ) =
        (((max x 1).toNat : ℚ) - 400 * (w : ℚ) / (h : ℚ)) * h := by
      rw [sub_mul, htr]
      push_cast
      ring
    rw [hsplit, abs_mul, abs_of_pos hhq, max_eq_right h2]
    calc |((max x 1).toNat : ℚ) - 400 * (w : ℚ) / (h : ℚ)| * h
        < 1 * h := mul_lt_mul_of_pos_right habs hhq
      _ = h := one_mul _
  · -- landscape: width is the larger dimension, becomes 400
    have hw400 : 400 < w := by omega
    have hw400q : (400 : ℚ) ≤ w := by exact_mod_cast le_of_lt hw400
    have hhw : (h : ℚ) ≤ w := by exact_mod_cast (by omega : h ≤ w)
    obtain ⟨y, hy, hthumb⟩ := thumbY_cases w h
    have ht0 : 0 < 400 * (h : ℚ) / (w : ℚ) :=
      div_pos (by positivity) hwq
    have ht400 : 400 * (h : ℚ) / (w : ℚ) ≤ ((400 : ℕ) : ℚ) := by
      rw [div_le_iff₀ hwq]
      push_cast
      nlinarith
    have hth : 400 * (h : ℚ) / (w : ℚ) ≤ ((h : ℕ) : ℚ) := by
      rw [div_le_iff₀ hwq]
      nlinarith
    have hb400 := clampRound_le (by norm_num) ht400 hy
    have hbh := clampRound_le hh hth hy
    have habs := clampRound_abs_lt ht0 hy
    dsimp only
    rw [hthumb]
    refine ⟨le_refl _, hb400, by omega, hbh, ?_⟩
    have htr : 400 * (h : ℚ) / (w : ℚ) * w = 400 * h :=
      div_mul_cancel₀ _ (ne_of_gt hwq)
    have hsplit : ((400 : ℕ) : ℚ) * h - w * (((max y 1).toNat : ℕ) : ℚ) =
        (400 * (h : ℚ) / (w : ℚ) - ((max y 1).toNat : ℚ)) * w := by
      rw [sub_mul, htr]
      push_cast
      ring
    rw [hsplit, abs_mul, abs_of_pos hwq, max_eq_left (by omega : h ≤ w),
        abs_sub_comm]
    calc |((max y 1).toNat : ℚ) - 400 * (h : ℚ) / (w : ℚ)| * w
        < 1 * w := mul_lt_mul_of_pos_right habs hwq
      _ = w := one_mul _

lemma compositeStep_width (img : DecodedImage) :
    (compositeStep img).width = img.width := by
  unfold compositeStep; split_ifs <;> rfl

lemma compositeStep_height (img : DecodedImage) :
    (compositeStep img).height = img.height := by
  unfold compositeStep; split_ifs <;> rfl

lemma compositeStep_format (img : DecodedImage) :
    (compositeStep img).format = img.format := by
  unfold compositeStep; split_ifs <;> rfl

lemma resizeStep_mode (resample : Resample) (img : DecodedImage) :
    (resizeStep resample img).mode = img.mode := by
  unfold resizeStep; split_ifs <;> rfl

lemma resizeStep_format (resample : Resample) (img : DecodedImage) :
    (resizeStep resample img).format = img.format := by
  unfold resizeStep; split_ifs <;> rfl
/-! ### Claim theorems -/

/-- C1: for every input with more than `5 * 1024 * 1024` bytes,
`analyze_tea` fails with the PayloadTooLarge error (HTTP 400); the result
does not depend on the decoder, the resampler or the random draws, so no
decode or later pipeline step influences it. -/
theorem analyze_tea_payload_too_large
    (decode : List Nat → Option DecodedImage) (resample : Resample)
    (vIdx gIdx : Nat) (conf : ℚ) (contents : List Nat)
    (hlen : 5 * 1024 * 1024 < List.length contents) :
    analyze_tea decode resample vIdx gIdx conf contents =
      .error payloadTooLargeError ∧ payloadTooLargeError.status = 400 := by
  constructor
  · unfold analyze_tea
    rw [if_pos hlen]
  · rfl

/-- Witness for C1: a concrete input of 5 MiB + 1 zero bytes. -/
theorem analyze_tea_payload_too_large_witness :
    5 * 1024 * 1024 <
      List.length (List.replicate (5 * 1024 * 1024 + 1) (0 : Nat)) ∧
    (analyze_tea (fun _ => none) (fun _ p => p) 0 0 0
        (List.replicate (5 * 1024 * 1024 + 1) (0 : Nat)) =
      .error payloadTooLargeError ∧ payloadTooLargeError.status = 400) :=
  ⟨by simp only [List.length_replicate]; exact Nat.lt_succ_self _,
   analyze_tea_payload_too_large _ _ _ _ _ _
     (by simp only [List.length_replicate]; exact Nat.lt_succ_self _)⟩

/-- C4: on every successful run (input within the size bound, decodable,
format JPEG or PNG, uniform draw in [0.7, 1.0]), the response's confidence
lies in [0.7, 1.0] and is an integer number of thousandths (exactly
3 decimal places), and variety and grade are drawn from the fixed
three-element lists `TEA_VARIETIES` and `TEA_GRADES`. -/
theorem analyze_tea_success_contract
    (decode : List Nat → Option DecodedImage) (resample : Resample)
    (vIdx gIdx : Nat) (conf : ℚ) (contents : List Nat) (image : DecodedImage)
    (hsize : List.length contents ≤ 5 * 1024 * 1024)
    (hdec : decode contents = some image)
    (hfmt : image.format ∈ ["JPEG", "PNG"])
    (hlo : 7 / 10 ≤ conf) (hhi : conf ≤ 1) :
    ∃ r : AnalyzeResponse,
      analyze_tea decode resample vIdx gIdx conf contents = .ok r ∧
      7 / 10 ≤ r.confidence ∧ r.confidence ≤ 1 ∧
      (∃ n : ℤ, r.confidence = (n : ℚ) / 1000) ∧
      r.variety ∈ TEA_VARIETIES ∧ r.grade ∈ TEA_GRADES ∧
      List.length TEA_VARIETIES = 3 ∧ List.length TEA_GRADES = 3 := by
  refine ⟨_, analyze_tea_ok_shape vIdx gIdx conf (by omega) hdec hfmt,
    le_round3 hlo, round3_le_one hhi, round3_thousandths conf,
    randomChoice_mem _ _ (by decide), randomChoice_mem _ _ (by decide),
    rfl, rfl⟩

/-- Witness for C4: a concrete valid PNG-tagged image, draw 1.0. -/
theorem analyze_tea_success_contract_witness :
    (List.length ([] : List Nat) ≤ 5 * 1024 * 1024 ∧
     ("PNG" : String) ∈ ["JPEG", "PNG"] ∧
     (7 : ℚ) / 10 ≤ 1 ∧ (1 : ℚ) ≤ 1) ∧
    (∃ r : AnalyzeResponse,
      analyze_tea
          (fun _ => some ⟨"PNG", "RGB", 10, 10, fun _ _ => [0, 0, 0]⟩)
          (fun _ p => p) 0 0 1 [] = .ok r ∧
      7 / 10 ≤ r.confidence ∧ r.confidence ≤ 1 ∧
      (∃ n : ℤ, r.confidence = (n : ℚ) / 1000) ∧
      r.variety ∈ TEA_VARIETIES ∧ r.grade ∈ TEA_GRADES ∧
      List.length TEA_VARIETIES = 3 ∧ List.length TEA_GRADES = 3) :=
  ⟨⟨by simp, by decide, div_le_one_of_le₀ (by decide) (by decide), le_refl 1⟩,
   analyze_tea_success_contract _ _ 0 0 1 [] _ (by simp) rfl (by decide)
     (div_le_one_of_le₀ (by decide) (by decide)) (le_refl 1)⟩

/-- C5 counterexample: on a concrete successful run the stub returns the
Japanese literal "やぶきた" as variety and "優良" as grade; neither is
among the romanized strings the claim names, so the claim as stated is
false on the code. -/
theorem analyze_tea_variety_japanese_counterexample :
    analyze_tea (fun _ => some ⟨"PNG", "RGB", 10, 10, fun _ _ => [0, 0, 0]⟩)
        (fun _ p => p) 0 0 0 [] =
      .ok { variety := "やぶきた", grade := "優良", confidence := round3 0 } ∧
    "やぶきた" ∉ ["Yabukita", "Saemidori", "Tsuyuhikari"] ∧
    "優良" ∉ ["Premium", "Medium", "Low"] :=
  ⟨rfl, by decide, by decide⟩

/-- C5 amended: every variety the stub classifier returns is one of the
exact literal strings "やぶきた", "さえみどり", "つゆひかり", and every
grade one of the exact literal strings "優良", "中等", "低級". -/
theorem analyze_tea_variety_grade_literals
    (decode : List Nat → Option DecodedImage) (resample : Resample)
    (vIdx gIdx : Nat) (conf : ℚ) (contents : List Nat) (r : AnalyzeResponse)
    (h : analyze_tea decode resample vIdx gIdx conf contents = .ok r) :
    r.variety ∈ ["やぶきた", "さえみどり", "つゆひかり"] ∧
    r.grade ∈ ["優良", "中等", "低級"] := by
  obtain ⟨hv, hg, -⟩ := analyze_tea_ok_inv h
  constructor
  · rw [hv]; exact randomChoice_mem _ _ (by decide)
  · rw [hg]; exact randomChoice_mem _ _ (by decide)

/-- Witness for C5 amended: a concrete successful run with indices 1, 2. -/
theorem analyze_tea_variety_grade_literals_witness :
    (analyze_tea (fun _ => some ⟨"PNG", "RGB", 10, 10, fun _ _ => [0, 0, 0]⟩)
        (fun _ p => p) 1 2 0 [] =
      .ok { variety := "さえみどり", grade := "低級", confidence := round3 0 }) ∧
    ("さえみどり" ∈ ["やぶきた", "さえみどり", "つゆひかり"] ∧
     "低級" ∈ ["優良", "中等", "低級"]) :=
  ⟨rfl, analyze_tea_variety_grade_literals
     (fun _ => some ⟨"PNG", "RGB", 10, 10, fun _ _ => [0, 0, 0]⟩)
     (fun _ p => p) 1 2 0 []
     { variety := "さえみどり", grade := "低級", confidence := round3 0 } rfl⟩

/-- C6: an input within the size bound that decodes to an image whose
format tag is outside {JPEG, PNG} fails with UnsupportedFormat (HTTP 400);
the result does not depend on the resampler or the random draws, so no
normalization or classification runs. -/
theorem analyze_tea_unsupported_format
    (decode : List Nat → Option DecodedImage) (resample : Resample)
    (vIdx gIdx : Nat) (conf : ℚ) (contents : List Nat) (image : DecodedImage)
    (hsize : List.length contents ≤ 5 * 1024 * 1024)
    (hdec : decode contents = some image)
    (hfmt : image.format ∉ ["JPEG", "PNG"]) :
    analyze_tea decode resample vIdx gIdx conf contents =
      .error unsupportedFormatError ∧ unsupportedFormatError.status = 400 := by
  constructor
  · unfold analyze_tea
    rw [if_neg (by omega : ¬List.length contents > 5 * 1024 * 1024), hdec]
    simp only [if_pos hfmt]
  · rfl

/-- Witness for C6: a concrete valid GIF-tagged image. -/
theorem analyze_tea_unsupported_format_witness :
    (List.length ([] : List Nat) ≤ 5 * 1024 * 1024 ∧
     ("GIF" : String) ∉ ["JPEG", "PNG"]) ∧
    (analyze_tea (fun _ => some ⟨"GIF", "P", 10, 10, fun _ _ => [0]⟩)
        (fun _ p => p) 0 0 0 [] =
      .error unsupportedFormatError ∧ unsupportedFormatError.status = 400) :=
  ⟨⟨by simp, by decide⟩,
   analyze_tea_unsupported_format _ _ 0 0 0 [] _ (by simp) rfl (by decide)⟩

/-- C7: an input within the size bound whose bytes the decoder cannot
parse fails with the DecodeError response (HTTP 400). -/
theorem analyze_tea_decode_error
    (decode : List Nat → Option DecodedImage) (resample : Resample)
    (vIdx gIdx : Nat) (conf : ℚ) (contents : List Nat)
    (hsize : List.length contents ≤ 5 * 1024 * 1024)
    (hdec : decode contents = none) :
    analyze_tea decode resample vIdx gIdx conf contents =
      .error decodeErrorResponse ∧ decodeErrorResponse.status = 400 := by
  constructor
  · unfold analyze_tea
    rw [if_neg (by omega : ¬List.length contents > 5 * 1024 * 1024), hdec]
  · rfl

/-- Witness for C7: a concrete three-byte non-image input. -/
theorem analyze_tea_decode_error_witness :
    List.length [1, 2, 3] ≤ 5 * 1024 * 1024 ∧
    (analyze_tea (fun _ => none) (fun _ p => p) 0 0 0 [1, 2, 3] =
      .error decodeErrorResponse ∧ decodeErrorResponse.status = 400) :=
  ⟨by simp, analyze_tea_decode_error _ _ 0 0 0 [1, 2, 3] (by simp) rfl⟩

/-- C8: `health_check` always returns the constant record with status
"healthy" and the fixed message; it takes no input and has no failure
mode. -/
theorem health_check_constant :
    health_check =
      { status := "healthy", message := "サーバーは正常に動作しています" } ∧
    health_check.status = "healthy" :=
  ⟨rfl, rfl⟩

/-- C9: the empty input passes the strict size check (`0 > 5 MiB` is
false) and, for any decoder that rejects the empty byte string (PIL does:
no JPEG or PNG stream is empty), fails at the decode step with the
DecodeError response (HTTP 400) — not with PayloadTooLarge and not with a
success or an uncategorized error. -/
theorem analyze_tea_empty_input
    (decode : List Nat → Option DecodedImage) (resample : Resample)
    (vIdx gIdx : Nat) (conf : ℚ)
    (hdec : decode [] = none) :
    ¬5 * 1024 * 1024 < List.length ([] : List Nat) ∧
    analyze_tea decode resample vIdx gIdx conf [] =
      .error decodeErrorResponse ∧
    decodeErrorResponse.status = 400 ∧
    decodeErrorResponse ≠ payloadTooLargeError := by
  refine ⟨by simp, ?_, rfl, by decide⟩
  unfold analyze_tea
  rw [if_neg (by simp : ¬List.length ([] : List Nat) > 5 * 1024 * 1024), hdec]

/-- Witness for C9: the decoder that rejects everything, at the empty
input. -/
theorem analyze_tea_empty_input_witness :
    ((fun _ : List Nat => (none : Option DecodedImage)) [] = none) ∧
    (¬5 * 1024 * 1024 < List.length ([] : List Nat) ∧
     analyze_tea (fun _ => none) (fun _ p => p) 0 0 0 [] =
       .error decodeErrorResponse ∧
     decodeErrorResponse.status = 400 ∧
     decodeErrorResponse ≠ payloadTooLargeError) :=
  ⟨rfl, analyze_tea_empty_input _ _ 0 0 0 rfl⟩

/-- C2: after `optimize_image`, `max(width, height) ≤ 400`; neither
dimension ever grows (no upscaling); if the original max dimension is
already ≤ 400 the dimensions are unchanged; and the aspect ratio is
preserved up to the integer rounding of the scaled dimension
(`|w' * h - w * h'| < max w h`). -/
theorem optimize_image_dims_bounded (resample : Resample) (img : DecodedImage)
    (hw : 1 ≤ img.width) (hh : 1 ≤ img.height) :
    max (optimize_image resample img).width
        (optimize_image resample img).height ≤ 400 ∧
    (optimize_image resample img).width ≤ img.width ∧
    (optimize_image resample img).height ≤ img.height ∧
    (max img.width img.height ≤ 400 →
      (optimize_image resample img).width = img.width ∧
      (optimize_image resample img).height = img.height) ∧
    |((optimize_image resample img).width : ℚ) * img.height -
        img.width * ((optimize_image resample img).height : ℚ)| <
      ((max img.width img.height : ℕ) : ℚ) := by
  unfold optimize_image
  rw [compositeStep_width, compositeStep_height]
  unfold resizeStep
  split_ifs with hg
  · dsimp only
    obtain ⟨h1, h2, h3, h4, h5⟩ := thumbnailSize_props hw hh (by omega)
    exact ⟨by omega, h3, h4, fun hmax => absurd hmax (by omega), h5⟩
  · refine ⟨by omega, le_refl _, le_refl _, fun _ => ⟨rfl, rfl⟩, ?_⟩
    rw [sub_self, abs_zero]
    exact_mod_cast (by omega : 0 < max img.width img.height)

/-- Witness for C2: a 600×300 image (the spec's scenario); the theorem
applies and the new dimensions are 400×200. -/
theorem optimize_image_dims_bounded_witness :
    (1 ≤ (600 : Nat) ∧ 1 ≤ (300 : Nat)) ∧
    (max (optimize_image (fun _ p => p)
            ⟨"PNG", "RGB", 600, 300, fun _ _ => [0, 0, 0]⟩).width
         (optimize_image (fun _ p => p)
            ⟨"PNG", "RGB", 600, 300, fun _ _ => [0, 0, 0]⟩).height ≤ 400 ∧
     (optimize_image (fun _ p => p)
        ⟨"PNG", "RGB", 600, 300, fun _ _ => [0, 0, 0]⟩).width ≤ 600 ∧
     (optimize_image (fun _ p => p)
        ⟨"PNG", "RGB", 600, 300, fun _ _ => [0, 0, 0]⟩).height ≤ 300 ∧
     (max 600 300 ≤ 400 →
       (optimize_image (fun _ p => p)
          ⟨"PNG", "RGB", 600, 300, fun _ _ => [0, 0, 0]⟩).width = 600 ∧
       (optimize_image (fun _ p => p)
          ⟨"PNG", "RGB", 600, 300, fun _ _ => [0, 0, 0]⟩).height = 300) ∧
     |((optimize_image (fun _ p => p)
          ⟨"PNG", "RGB", 600, 300, fun _ _ => [0, 0, 0]⟩).width : ℚ) * 300 -
        600 * ((optimize_image (fun _ p => p)
          ⟨"PNG", "RGB", 600, 300, fun _ _ => [0, 0, 0]⟩).height : ℚ)| <
       ((max 600 300 : ℕ) : ℚ)) :=
  ⟨⟨by decide, by decide⟩,
   optimize_image_dims_bounded (fun _ p => p)
     ⟨"PNG", "RGB", 600, 300, fun _ _ => [0, 0, 0]⟩ (by decide) (by decide)⟩

lemma blendWhite_zero (v : Nat) : blendWhite 0 v = 255 := by
  simp [blendWhite, mulDiv255]

lemma compositeWhite_alpha_zero (mode : String) (p : Pixel)
    (h : alphaOf p = 0) : compositeWhite mode p = [255, 255, 255] := by
  dsimp only [compositeWhite]
  rw [h]
  split_ifs <;> simp [blendWhite_zero]

/-- C3 counterexample: a valid grayscale image (mode "L", as a grayscale
JPEG or PNG decodes to) keeps mode "L" through `optimize_image`, and "L"
is a 1-channel mode — so it is not true that after normalization every
image's color mode is a 3-channel mode. -/
theorem optimize_image_L_mode_counterexample :
    (optimize_image (fun _ p => p)
        ⟨"PNG", "L", 10, 10, fun _ _ => [0]⟩).mode = "L" ∧
    ¬threeChannelNoAlpha "L" :=
  ⟨rfl, by decide⟩

/-- C3 amended (restricted to alpha-bearing inputs): for every image whose
mode is RGBA or LA, `optimize_image` produces mode "RGB" — a 3-channel
mode with no alpha — and every output pixel is the composite of the
corresponding (post-resize) pixel onto an opaque white background under
the pixel's own alpha mask; in particular pixels whose alpha is 0 (fully
transparent) become white `[255, 255, 255]`. -/
theorem optimize_image_alpha_composited (resample : Resample)
    (img : DecodedImage) (hmode : img.mode = "RGBA" ∨ img.mode = "LA") :
    (optimize_image resample img).mode = "RGB" ∧
    threeChannelNoAlpha (optimize_image resample img).mode ∧
    (∀ x y, (optimize_image resample img).pix x y =
      compositeWhite img.mode ((resizeStep resample img).pix x y)) ∧
    (∀ x y, alphaOf ((resizeStep resample img).pix x y) = 0 →
      (optimize_image resample img).pix x y = [255, 255, 255]) := by
  unfold optimize_image compositeStep
  rw [resizeStep_mode, if_pos hmode]
  refine ⟨rfl, (by decide : threeChannelNoAlpha "RGB"), fun x y => rfl,
    fun x y ha => ?_⟩
  exact compositeWhite_alpha_zero _ _ ha

/-- Witness for C3 amended: a concrete 100×100 RGBA image all of whose
pixels are fully transparent (the spec's full-transparency scenario). -/
theorem optimize_image_alpha_composited_witness :
    ((⟨"PNG", "RGBA", 100, 100, fun _ _ => [10, 20, 30, 0]⟩ :
        DecodedImage).mode = "RGBA" ∨
     (⟨"PNG", "RGBA", 100, 100, fun _ _ => [10, 20, 30, 0]⟩ :
        DecodedImage).mode = "LA") ∧
    ((optimize_image (fun _ p => p)
        ⟨"PNG", "RGBA", 100, 100, fun _ _ => [10, 20, 30, 0]⟩).mode = "RGB" ∧
     threeChannelNoAlpha (optimize_image (fun _ p => p)
        ⟨"PNG", "RGBA", 100, 100, fun _ _ => [10, 20, 30, 0]⟩).mode ∧
     (∀ x y, (optimize_image (fun _ p => p)
          ⟨"PNG", "RGBA", 100, 100, fun _ _ => [10, 20, 30, 0]⟩).pix x y =
        compositeWhite "RGBA"
          ((resizeStep (fun _ p => p)
            ⟨"PNG", "RGBA", 100, 100, fun _ _ => [10, 20, 30, 0]⟩).pix x y)) ∧
     (∀ x y, alphaOf ((resizeStep (fun _ p => p)
          ⟨"PNG", "RGBA", 100, 100, fun _ _ => [10, 20, 30, 0]⟩).pix x y) = 0 →
        (optimize_image (fun _ p => p)
          ⟨"PNG", "RGBA", 100, 100, fun _ _ => [10, 20, 30, 0]⟩).pix x y =
          [255, 255, 255])) :=
  ⟨Or.inl rfl,
   optimize_image_alpha_composited (fun _ p => p)
     ⟨"PNG", "RGBA", 100, 100, fun _ _ => [10, 20, 30, 0]⟩ (Or.inl rfl)⟩

/-- C10: for every image whose mode is neither RGBA nor LA (e.g.
grayscale "L" or palette "P"), `optimize_image` is exactly the resize
step: no compositing is applied, the color mode (and format) is
unchanged, and if the image already fits within 400×400 it is returned
entirely unchanged — only the dimensions may change. -/
theorem optimize_image_non_alpha_mode (resample : Resample)
    (img : DecodedImage) (h1 : img.mode ≠ "RGBA") (h2 : img.mode ≠ "LA") :
    optimize_image resample img = resizeStep resample img ∧
    (optimize_image resample img).mode = img.mode ∧
    (optimize_image resample img).format = img.format ∧
    (img.width ≤ 400 → img.height ≤ 400 →
      optimize_image resample img = img) := by
  have hco : compositeStep (resizeStep resample img) =
      resizeStep resample img := by
    unfold compositeStep
    rw [resizeStep_mode, if_neg (by tauto)]
  unfold optimize_image
  refine ⟨hco, ?_, ?_, fun hw hh => ?_⟩
  · rw [hco, resizeStep_mode]
  · rw [hco, resizeStep_format]
  · rw [hco]
    unfold resizeStep
    rw [if_neg (by omega)]

/-- Witness for C10: a concrete 10×10 grayscale (mode "L") image is
returned entirely unchanged. -/
theorem optimize_image_non_alpha_mode_witness :
    (("L" : String) ≠ "RGBA" ∧ ("L" : String) ≠ "LA") ∧
    (optimize_image (fun _ p => p) ⟨"PNG", "L", 10, 10, fun _ _ => [7]⟩ =
       resizeStep (fun _ p => p) ⟨"PNG", "L", 10, 10, fun _ _ => [7]⟩ ∧
     (optimize_image (fun _ p => p)
        ⟨"PNG", "L", 10, 10, fun _ _ => [7]⟩).mode = "L" ∧
     (optimize_image (fun _ p => p)
        ⟨"PNG", "L", 10, 10, fun _ _ => [7]⟩).format = "PNG" ∧
     ((10 : Nat) ≤ 400 → (10 : Nat) ≤ 400 →
       optimize_image (fun _ p => p) ⟨"PNG", "L", 10, 10, fun _ _ => [7]⟩ =
         ⟨"PNG", "L", 10, 10, fun _ _ => [7]⟩)) :=
  ⟨⟨by decide, by decide⟩,
   optimize_image_non_alpha_mode (fun _ p => p)
     ⟨"PNG", "L", 10, 10, fun _ _ => [7]⟩ (by decide) (by decide)⟩
